import Mathlib

/-!
Verification development for the Liferay → Next.js static-site extractor
(`src/extractor/liferay-nextjs-ssg/src/lib/liferay.ts`).

The core pipeline (asset localization, CSS rewriting, link classification,
srcset rewriting, inline-style `url()` rewriting, sprite inlining, and
stylesheet/script tag removal) is shallowly embedded below.  Strings are
modelled as `List Char` (abbreviated `Str`) so that every operation is a
structurally recursive, kernel-computable function; external effects
(network fetch, the SHA-256 digest of the `crypto` module, the on-disk
asset cache, cheerio lookups into a downloaded sprite file) are modelled
as explicit parameters or oracles threaded through the functions.
-/

set_option maxRecDepth 4000

/-- Strings are modelled as lists of characters. -/
abbrev Str := List Char

/-- Boolean prefix test (JS `String.prototype.startsWith`). -/
def pOf : Str → Str → Bool
  | [], _ => true
  | _ :: _, [] => false
  | a :: as, b :: bs => a = b && pOf as bs

/-- Boolean substring-occurrence test. -/
def occursIn (pat : Str) : Str → Bool
  | [] => pat.isEmpty
  | c :: rest => pOf pat (c :: rest) || occursIn pat rest

/-- JS `String.prototype.split` with a one-character separator: splits at every
occurrence, keeping empty pieces, `"".split(sep) = [""]`. -/
def splitOnC (sep : Char) : Str → List Str
  | [] => [[]]
  | c :: rest =>
    let r := splitOnC sep rest
    if c = sep then [] :: r
    else
      match r with
      | [] => [[c]]
      | h :: t => (c :: h) :: t

/-- Whitespace test used by JS `String.prototype.trim`, restricted to the ASCII
whitespace characters that can occur in the inputs we model. -/
def isWsC (c : Char) : Bool :=
  c = ' ' || c = '\t' || c = '\n' || c = '\r'

/-- JS `String.prototype.trim`. -/
def trimL (s : Str) : Str :=
  ((s.dropWhile isWsC).reverse.dropWhile isWsC).reverse

/-- `Array.prototype.join(sep)`. -/
def joinWith (sep : Str) (l : List Str) : Str :=
  match l with
  | [] => []
  | [x] => x
  | x :: xs => x ++ sep ++ joinWith sep xs

/-- Index of the first character satisfying `p`. -/
def findIdx? (p : Char → Bool) : Str → Option Nat
  | [] => none
  | c :: r => if p c then some 0 else (findIdx? p r).map (· + 1)

/-- First index `i` such that the character at `i` is `q` and the character at
`i+1` is `')'` (used for the lazy `(.*?)\1\)` regex group with backreference). -/
def findPairClose (q : Char) : Str → Option Nat
  | x :: y :: r =>
    if x = q && y = ')' then some 0
    else (findPairClose q (y :: r)).map (· + 1)
  | _ => none

/-! ### URL model

`new URL(...)` of the WHATWG URL standard, modelled for the `http(s)` URL
shapes that occur in this pipeline (no percent-encoding, no `..`
normalisation, hosts already lower-case). -/

/-- Characters that end the authority component of a URL. -/
def authChar (c : Char) : Bool :=
  !(c = '/') && !(c = '?') && !(c = '#')

/-- `new URL(s)` for an absolute `http(s)` URL: returns `(hostname, pathname)`,
or `none` when the constructor would throw. -/
def parseAbsUrl (s : Str) : Option (Str × Str) :=
  let rest? : Option Str :=
    if pOf "http://".data s then some (s.drop 7)
    else if pOf "https://".data s then some (s.drop 8)
    else none
  match rest? with
  | none => none
  | some rest =>
    let auth := rest.takeWhile authChar
    if auth = [] then none
    else
      let host := auth.takeWhile (fun c => !(c = ':'))
      let after := rest.drop auth.length
      let pathname := after.takeWhile (fun c => !(c = '?') && !(c = '#'))
      some (host, if pathname = [] then "/".data else pathname)

/-- The `scheme://authority` part of an absolute URL. -/
def urlOriginOf (s : Str) : Str :=
  if pOf "http://".data s then
    "http://".data ++ (s.drop 7).takeWhile authChar
  else if pOf "https://".data s then
    "https://".data ++ (s.drop 8).takeWhile authChar
  else s

/-- The pathname of an absolute URL (`new URL(u).pathname`), `none` if the URL
does not parse. -/
def urlPathname (s : Str) : Option Str :=
  (parseAbsUrl s).map Prod.snd

/-- `new URL(u, base).toString()` for the URL shapes of this pipeline:
absolute URLs pass through, `//host/...` is resolved against the base scheme,
`/path` against the base origin, and other relative references against the
directory of the base URL. -/
def resolveUrl (base u : Str) : Str :=
  if pOf "http://".data u || pOf "https://".data u then u
  else if pOf "//".data u then
    (if pOf "https://".data base then "https:".data else "http:".data) ++ u
  else if pOf "/".data u then urlOriginOf base ++ u
  else ((base.reverse.dropWhile (fun c => !(c = '/'))).reverse) ++ u

/-- Node `path.extname` on a pathname: the suffix of the basename starting at
its last dot, `""` when the basename has no dot or only a leading dot. -/
def extnameL (p : Str) : Str :=
  let b := (p.reverse.takeWhile (fun c => !(c = '/'))).reverse
  match findLastDot b with
  | none => []
  | some 0 => []
  | some i => b.drop i
where
  /-- Index of the last `'.'` in the list, if any. -/
  findLastDot (b : Str) : Option Nat :=
    (findIdx? (fun c => c = '.') b.reverse).map (fun i => b.length - 1 - i)

/-! ### Asset Localizer (`downloadAndRewriteAsset`)

The network and the content-addressed on-disk cache are modelled explicitly:
`fetch` is an oracle mapping a URL to a result, the cache is the list of
public paths whose backing files exist (the local file path
`<cwd>/public<publicPath>` is in bijection with the public path), and the
SHA-256 hex digest of `crypto.createHash` is an abstract function. -/

/-- Outcome of a `fetch(url)` call: success with a body, a non-success HTTP
status, or a thrown transport error. -/
inductive FetchResult where
  | ok (body : Str)
  | httpError
  | transportError
deriving DecidableEq

/-- External collaborators of the localizer. -/
structure DlCtx where
  hashHex : Str → Str
  fetch : Str → FetchResult

/-- Observable outcome of one `downloadAndRewriteAsset` call: the returned
string, the cache afterwards, how many network fetches were performed, and
whether a `console.warn`/`console.error` diagnostic was emitted. -/
structure DlOutcome where
  result : Str
  fsAfter : List Str
  fetchCount : Nat
  logged : Bool
deriving DecidableEq

/-- The extension chosen for an asset: `.css` for styles, `.js` for scripts,
otherwise the extension of the URL's pathname.  `none` models the
`new URL(originalAbsoluteUrl)` constructor throwing (that expression sits
outside the `try` block, so the exception propagates). -/
def assetExtension (assetType url : Str) : Option Str :=
  if assetType = "styles".data then some ".css".data
  else if assetType = "scripts".data then some ".js".data
  else (urlPathname url).map extnameL

/-- The public path `/assets/<type>/<hash><ext>` of a localized asset. -/
def publicPathOf (hashHex : Str → Str) (assetType url ext : Str) : Str :=
  "/assets/".data ++ assetType ++ "/".data ++ hashHex url ++ ext

/-- `downloadAndRewriteAsset(originalAbsoluteUrl, assetType)` from
`liferay.ts`: empty URL returns the `'#'` placeholder (with a warning); a
cached destination short-circuits without a fetch; a failed fetch (non-success
status or thrown transport error) logs and returns the original URL; a
successful fetch writes the file and returns the public path.  `none` models
the URL constructor throwing while computing the extension. -/
def downloadAndRewriteAsset (ctx : DlCtx) (fs : List Str) (url assetType : Str) :
    Option DlOutcome :=
  if url = [] then some ⟨"#".data, fs, 0, true⟩
  else
    match assetExtension assetType url with
    | none => none
    | some ext =>
      let pp := publicPathOf ctx.hashHex assetType url ext
      if fs.contains pp then some ⟨pp, fs, 0, false⟩
      else
        match ctx.fetch url with
        | .ok _ => some ⟨pp, pp :: fs, 1, false⟩
        | .httpError => some ⟨url, fs, 1, true⟩
        | .transportError => some ⟨url, fs, 1, true⟩

/-! ### Link Classifier (the `<a href>` loop of `rewriteAndDownloadAssets`) -/

/-- The friendly-path matching of the anchor loop: when a non-empty
`LIFERAY_PATH_PREFIX` is configured and the path starts with it, the stripped
path is tested against `allFriendlyUrlPaths`; otherwise (`else if` in the
source) the path itself is tested.  A match yields the `/pages`-prefixed static
route. -/
def matchFriendly (pfx : Str) (index : List Str) (p : Str) : Option Str :=
  if !pfx.isEmpty && pOf pfx p then
    (if index.contains (p.drop pfx.length) then
      some ("/pages".data ++ p.drop pfx.length)
     else none)
  else if index.contains p then some ("/pages".data ++ p)
  else none

/-- The `<a href>` rewrite of `rewriteAndDownloadAssets`: resolve the href
(against the source origin when it is origin-relative); on the source host,
run the friendly-path match; a matched link becomes the static route, an
unmatched origin-relative link is made absolute, everything else is left
unchanged. -/
def classifyHref (origin pfx : Str) (index : List Str) (href : Str) : Str :=
  let potentialPath : Option Str :=
    match (if pOf "/".data href then parseAbsUrl (resolveUrl origin href)
           else parseAbsUrl href) with
    | none => none
    | some (h, p) =>
      match parseAbsUrl origin with
      | some (oh, _) => if h = oh then some p else none
      | none => none
  match potentialPath.bind (fun p => matchFriendly pfx index p) with
  | some r => r
  | none => if pOf "/".data href then resolveUrl origin href else href

/-! ### srcset rewriting (the `<source>` loop) -/

/-- One candidate of a `srcset` list: trim, split on single spaces, and when
the first token is a non-empty origin-relative URL, localize it and re-attach
the second token (if non-empty); otherwise return the candidate unchanged. -/
def rewriteSrcsetCandidate (localize : Str → Str) (base s : Str) : Str :=
  let parts := splitOnC ' ' (trimL s)
  let url := parts.headD []
  if !url.isEmpty && pOf "/".data url then
    let newUrl := localize (resolveUrl base url)
    newUrl ++
      (match parts.get? 1 with
       | some d => if d.isEmpty then [] else ' ' :: d
       | none => [])
  else s

/-- The whole `srcset` attribute rewrite: split on commas, rewrite each
candidate, join with `", "`. -/
def rewriteSrcset (localize : Str → Str) (base srcset : Str) : Str :=
  joinWith ", ".data ((splitOnC ',' srcset).map (rewriteSrcsetCandidate localize base))

/-! ### Sprite inlining (the `<svg use>` loop)

Reading the downloaded sprite file back from disk and querying it with
cheerio is modelled by the oracle `lookup : localPath → fragmentId →
Option SpriteSym`. -/

/-- A `<symbol>` (or other identified element) found inside a sprite file:
its declared view-box (`""` when the attribute is absent) and its inner
markup. -/
structure SpriteSym where
  viewBox : Str
  inner : Str
deriving DecidableEq

/-- Observable outcome of processing one `<svg use>` element: the
self-contained replacement markup for the enclosing `<svg>` (if inlining
happened), the `href` attribute afterwards, and whether a warning was
logged. -/
structure UseResult where
  replacedSvg : Option Str
  hrefAfter : Str
  warned : Bool
deriving DecidableEq

/-- The new inline `<svg>` markup built from the referenced symbol, carrying
over the original class and role and the symbol's view-box. -/
def mkInlineSvg (cls role : Str) (sym : SpriteSym) : Str :=
  "<svg class=\"".data ++ cls ++ "\" role=\"".data ++ role ++ "\"".data ++
    (if sym.viewBox.isEmpty then [] else " viewBox=\"".data ++ sym.viewBox ++ "\"".data) ++
    ">".data ++ sym.inner ++ "</svg>".data

/-- The `<svg use>` handler: split the href at `#`; for an origin-bound sprite
URL, localize the sprite and, when a fragment id is present and found in the
localized file, replace the enclosing `<svg>` (whose class and role are
`parentSvg`, `none` when there is no enclosing `<svg>`); a missing fragment or
an id not found in the sprite logs a warning and leaves the reference
untouched; an off-origin sprite logs a warning and is left as is. -/
def handleUse (origin : Str) (localize : Str → Str)
    (lookup : Str → Str → Option SpriteSym) (parentSvg : Option (Str × Str))
    (href : Str) : UseResult :=
  let parts := splitOnC '#' href
  let base := parts.headD []
  let frag := ((parts.get? 1).getD [])
  if !base.isEmpty && pOf origin base then
    let lp := localize base
    if !frag.isEmpty then
      match lookup lp frag with
      | some sym =>
        match parentSvg with
        | some (cls, role) => ⟨some (mkInlineSvg cls role sym), href, false⟩
        | none => ⟨none, href, false⟩
      | none => ⟨none, href, true⟩
    else ⟨none, href, true⟩
  else if !base.isEmpty then ⟨none, href, true⟩
  else ⟨none, href, false⟩

/-! ### Stylesheet/script tag removal (the two `.remove()` calls)

A minimal document-tree model (element/text nodes) sufficient to state the
unconditional `$('link[rel="stylesheet"]').remove()` and
`$('script[src]').remove()` passes. -/

mutual
/-- A node of the captured page tree. -/
inductive HNode where
  | text (s : Str)
  | elem (tag : Str) (attrs : List (Str × Str)) (kids : HForest)
/-- A list of sibling nodes. -/
inductive HForest where
  | nil
  | cons (n : HNode) (rest : HForest)
end

/-- Attribute lookup on an element's attribute list. -/
def attrVal (attrs : List (Str × Str)) (k : Str) : Option Str :=
  match attrs with
  | [] => none
  | (k2, v) :: rest => if k2 = k then some v else attrVal rest k

/-- The removal predicate: `link[rel="stylesheet"]` or `script[src]` (the two
cheerio selectors removed by `rewriteAndDownloadAssets`). -/
def isRemovableTag : HNode → Bool
  | .text _ => false
  | .elem tag attrs _ =>
    (tag = "link".data && attrVal attrs "rel".data = some "stylesheet".data) ||
    (tag = "script".data && (attrVal attrs "src".data).isSome)

mutual
/-- Removal pass on a node (recurses into the children of kept elements). -/
def removeTagsNode : HNode → HNode
  | .text s => .text s
  | .elem tag attrs kids => .elem tag attrs (removeTagsForest kids)
/-- Removal pass on a forest: matching elements are dropped with their whole
subtree; the pass does not consult the discovered CSS/JS URL sets. -/
def removeTagsForest : HForest → HForest
  | .nil => .nil
  | .cons n rest =>
    if isRemovableTag n then removeTagsForest rest
    else .cons (removeTagsNode n) (removeTagsForest rest)
end

mutual
/-- Does the subtree rooted at this node contain a removable element? -/
def hasRemovableNode : HNode → Bool
  | .text _ => false
  | n@(.elem _ _ kids) => isRemovableTag n || hasRemovableForest kids
/-- Does the forest contain a removable element? -/
def hasRemovableForest : HForest → Bool
  | .nil => false
  | .cons n rest => hasRemovableNode n || hasRemovableForest rest
end

/-! ### The `url()` regex machinery

The scanning regex `/url\((?!['"]?data:)(['"]?)(.*?)\1\)/g` (used on CSS text
and on inline `style` attributes) and the replacing regex
``url\((['"]?)ESC\1\)`` (built per collected URL with `escapeRegex`) are
modelled as explicit left-to-right scanners with the exact greedy-quote /
lazy-payload / backtracking behaviour of the JS engine.  Both use a fuel
argument that decreases by one per scan position, so `fuel = s.length`
always suffices. -/

/-- Match of the scanning regex at the head of `s`: `(full match, payload,
consumed length)`.  The optional quote is greedy with backtracking to the
unquoted alternative; the negative lookahead rejects `data:` URIs. -/
def urlScanAt (s : Str) : Option (Str × Str × Nat) :=
  if pOf "url(".data s then
    let t := s.drop 4
    if pOf "data:".data t ||
        (match t with
         | q :: t2 => (q = '\'' || q = '"') && pOf "data:".data t2
         | [] => false) then none
    else
      match t with
      | q :: t2 =>
        if q = '\'' || q = '"' then
          match findPairClose q t2 with
          | some i => some (s.take (4 + 1 + i + 2), t2.take i, 4 + 1 + i + 2)
          | none =>
            match findIdx? (fun c => c = ')') t with
            | some j => some (s.take (4 + j + 1), t.take j, 4 + j + 1)
            | none => none
        else
          match findIdx? (fun c => c = ')') t with
          | some j => some (s.take (4 + j + 1), t.take j, 4 + j + 1)
          | none => none
      | [] => none
  else none

/-- One `g`-scan of the scanning regex: the list of `(full match, payload)`
pairs, in order, resuming after each match. -/
def scanUrlsGo : Nat → Str → List (Str × Str)
  | 0, _ => []
  | _ + 1, [] => []
  | f + 1, s@(_ :: rest) =>
    match urlScanAt s with
    | some (full, pay, k) => (full, pay) :: scanUrlsGo f (s.drop k)
    | none => scanUrlsGo f rest

/-- All `url(...)` references of `s` (full match and payload). -/
def scanUrls (s : Str) : List (Str × Str) :=
  scanUrlsGo s.length s

/-- Match of the replacing regex ``url\((['"]?)orig\1\)`` at the head of `s`:
the consumed length, if it matches.  The quoted alternative is tried first,
then the unquoted one at the same position. -/
def urlRepMatchAt (orig s : Str) : Option Nat :=
  if pOf "url(".data s then
    let t := s.drop 4
    match t with
    | q :: t2 =>
      if (q = '\'' || q = '"') && pOf (orig ++ [q, ')']) t2 then
        some (4 + 1 + orig.length + 2)
      else if pOf (orig ++ [')']) t then some (4 + orig.length + 1)
      else none
    | [] =>
      if pOf (orig ++ [')']) t then some (4 + orig.length + 1) else none
  else none

/-- `String.prototype.replace` with the global replacing regex for `orig`,
substituting `url('loc')` for every match. -/
def repUrlGo (orig loc : Str) : Nat → Str → Str
  | 0, s => s
  | _ + 1, [] => []
  | f + 1, s@(ch :: rest) =>
    match urlRepMatchAt orig s with
    | some k => ("url('".data ++ loc ++ "')".data) ++ repUrlGo orig loc f (s.drop k)
    | none => ch :: repUrlGo orig loc f rest

/-- Replace every match of the replacing regex for `orig` by `url('loc')`. -/
def repUrl (orig loc s : Str) : Str :=
  repUrlGo orig loc s.length s

/-- `String.prototype.replaceAll` with a plain (non-regex) pattern. -/
def plainRepAllGo (pat rep : Str) : Nat → Str → Str
  | 0, s => s
  | _ + 1, [] => []
  | f + 1, s@(ch :: rest) =>
    if pOf pat s then rep ++ plainRepAllGo pat rep f (s.drop (max pat.length 1))
    else ch :: plainRepAllGo pat rep f rest

/-- `s.replaceAll(pat, rep)` for plain string patterns. -/
def plainRepAll (pat rep s : Str) : Str :=
  plainRepAllGo pat rep s.length s

/-- `String.prototype.replace` with a plain pattern: first occurrence only. -/
def replaceFirstGo (pat rep : Str) : Nat → Str → Str
  | 0, s => s
  | _ + 1, [] => if pOf pat [] then rep else []
  | f + 1, s@(ch :: rest) =>
    if pOf pat s then rep ++ s.drop pat.length
    else ch :: replaceFirstGo pat rep f rest

/-- `s.replace(pat, rep)` for plain string patterns. -/
def replaceFirst (pat rep s : Str) : Str :=
  replaceFirstGo pat rep (s.length + 1) s

/-! ### Inline `style` attribute rewriting (the `[style*="url("]` loop) -/

/-- First-occurrence deduplication (the key set of the JS `Map`, in insertion
order). -/
def dedupFirst : List Str → List Str
  | [] => []
  | x :: xs => x :: (dedupFirst xs).filter (fun y => !(y = x))

/-- Stable insertion into a length-descending list (the JS stable sort with
comparator `(a, b) => b.length - a.length`). -/
def insertLenDesc (x : Str) : List Str → List Str
  | [] => [x]
  | y :: ys => if y.length < x.length then x :: y :: ys else y :: insertLenDesc x ys

/-- Stable sort by decreasing length. -/
def sortLenDesc (l : List Str) : List Str :=
  l.foldr insertLenDesc []

/-- The inline `style` attribute rewrite: collect the `url()` payloads, keep
the origin-bound ones, localize each, then apply the per-URL replacing regex
longest-URL-first (a falsy localized value skips that replacement). -/
def rewriteStyleAttr (origin base : Str) (localize : Str → Str) (attr : Str) : Str :=
  let keys := dedupFirst (((scanUrls attr).map Prod.snd).filter
    (fun u => pOf origin (resolveUrl base u)))
  (sortLenDesc keys).foldl
    (fun acc u =>
      let lu := localize (resolveUrl base u)
      if lu.isEmpty then acc else repUrl u lu acc)
    attr

/-! ### Stylesheet Rewrite Engine (`processAndRewriteCssUrls`)

The `@import` regex `/@import\s+(?:url\((['"]?)(.*?)\1\)|(['"])(.*?)\3);?/g`
is modelled by `importScanAt`/`scanImports`; the recursive inlining of
origin-bound imports is modelled with a fuel argument (`none` = the
recursion does not complete within the given depth budget).  The `url()`
phase localizes origin-bound references through the `localize` oracle and
replaces each full match with `replaceAll`. -/

/-- Match of the `@import` regex at the head of `s`: `(full match, import
URL, consumed length)`. -/
def importScanAt (s : Str) : Option (Str × Str × Nat) :=
  if pOf "@import".data s then
    let t := s.drop 7
    let ws := t.takeWhile isWsC
    if ws.isEmpty then none
    else
      let t2 := t.drop ws.length
      let inner? : Option (Str × Nat) :=
        if pOf "url(".data t2 then
          let t3 := t2.drop 4
          match t3 with
          | q :: t4 =>
            if q = '\'' || q = '"' then
              match findPairClose q t4 with
              | some i => some (t4.take i, 4 + 1 + i + 2)
              | none =>
                match findIdx? (fun c => c = ')') t3 with
                | some j => some (t3.take j, 4 + j + 1)
                | none => none
            else
              match findIdx? (fun c => c = ')') t3 with
              | some j => some (t3.take j, 4 + j + 1)
              | none => none
          | [] => none
        else
          match t2 with
          | q :: t3 =>
            if q = '\'' || q = '"' then
              match findIdx? (fun c => c = q) t3 with
              | some i => some (t3.take i, 1 + i + 1)
              | none => none
            else none
          | [] => none
      match inner? with
      | none => none
      | some (pay, k) =>
        let k2 := 7 + ws.length + k
        let k3 := if (s.drop k2).headD ' ' = ';' then k2 + 1 else k2
        some (s.take k3, pay, k3)
  else none

/-- One `g`-scan collecting all `@import` directives. -/
def scanImportsGo : Nat → Str → List (Str × Str)
  | 0, _ => []
  | _ + 1, [] => []
  | f + 1, s@(_ :: rest) =>
    match importScanAt s with
    | some (full, pay, k) => (full, pay) :: scanImportsGo f (s.drop k)
    | none => scanImportsGo f rest

/-- All `@import` directives of a stylesheet (full match and import URL). -/
def scanImports (s : Str) : List (Str × Str) :=
  scanImportsGo s.length s

/-- External collaborators of the Stylesheet Rewrite Engine: the source
origin, the raw network fetch used for imported stylesheets, and the
localizer (`downloadAndRewriteAsset` for a given asset type). -/
structure CssCtx where
  origin : Str
  fetch : Str → FetchResult
  localize : Str → Str → Str

/-- Asset-type classification of a `url()` reference inside CSS, by extension
(`/\.(png|jpg|jpeg|gif|svg|webp|eot|ttf|woff|woff2)$/i`). -/
def cssAssetType (u : Str) : Str :=
  let low := u.map Char.toLower
  if ["png", "jpg", "jpeg", "gif", "svg", "webp", "eot", "ttf", "woff", "woff2"].any
      (fun e => pOf ('.' :: e.data).reverse low.reverse) then
    "images".data
  else "fonts".data

/-- The `url()` phase of the Stylesheet Rewrite Engine: localize each
origin-bound, non-empty reference and `replaceAll` its full matched text with
`url('<local>')`. -/
def rewriteCssUrls (ctx : CssCtx) (css base : Str) : Str :=
  let reps := (scanUrls css).filterMap (fun fp =>
    if fp.2.isEmpty then none
    else
      let abs := resolveUrl base fp.2
      if pOf ctx.origin abs then
        some (fp.1, "url('".data ++ ctx.localize (cssAssetType fp.2) abs ++ "')".data)
      else none)
  reps.foldl (fun acc ft => plainRepAll ft.1 ft.2 acc) css

/-- Processing of the `@import` directives found in one stylesheet: an
off-origin import is kept verbatim, an import equal to the current base URL
is dropped (the cycle check), a fetch failure or empty URL drops the
directive, and a successful fetch splices in the recursive rewrite (`rec`).
`none` propagates a recursion budget exhaustion. -/
def processImports (ctx : CssCtx) (rec : Str → Str → Option Str) (base : Str) :
    List (Str × Str) → Option (List (Str × Str))
  | [] => some []
  | (w, u) :: rest =>
    let rep : Option Str :=
      if u.isEmpty then some []
      else
        let abs := resolveUrl base u
        if pOf ctx.origin abs then
          (if abs = base then some []
           else
             match ctx.fetch abs with
             | .ok txt => rec txt abs
             | _ => some [])
        else some w
    match rep with
    | none => none
    | some r =>
      match processImports ctx rec base rest with
      | none => none
      | some t => some ((w, r) :: t)

/-- `processAndRewriteCssUrls(cssContent, baseUrl)`: resolve each `@import`
(recursively, with the single-ancestor cycle check), splice the results in
place of the directives (first occurrence, in match order), then run the
`url()` phase.  The fuel bounds the recursion depth; `none` means the
recursion did not complete within that depth. -/
def processAndRewriteCssUrls (ctx : CssCtx) : Nat → Str → Str → Option Str
  | 0, _, _ => none
  | fuel + 1, css, base =>
    match processImports ctx (processAndRewriteCssUrls ctx fuel) base (scanImports css) with
    | none => none
    | some reps =>
      some (rewriteCssUrls ctx
        (reps.foldl (fun acc ft => replaceFirst ft.1 ft.2 acc) css) base)

/-! ### The `<img src>` loop -/

/-- The `<img>` rewrite of `rewriteAndDownloadAssets`: an origin-relative
`src` is resolved and localized as an image and the attribute is set to the
localizer's result; other values are left alone.  `none` propagates a thrown
exception from the localizer. -/
def rewriteImgSrc (ctx : DlCtx) (fs : List Str) (base src : Str) : Option Str :=
  if pOf "/".data src then
    (downloadAndRewriteAsset ctx fs (resolveUrl base src) "images".data).map
      DlOutcome.result
  else some src

/-! ### Concrete instances used by witnesses and counterexamples -/

/-- A concrete stand-in for the SHA-256 hex digest. -/
def hashW : Str → Str := fun _ => "0abc".data

/-- Localizer collaborators whose fetch always fails with a non-success
status. -/
def dlCtxFail : DlCtx := ⟨hashW, fun _ => .httpError⟩

/-- Localizer collaborators whose fetch always succeeds. -/
def dlCtxOk : DlCtx := ⟨hashW, fun _ => .ok "body".data⟩

/-- The stylesheet at `/a.css` of the two-unit `@import` cycle. -/
def cssA : Str := "@import url(/b.css);".data

/-- The stylesheet at `/b.css` of the two-unit `@import` cycle. -/
def cssB : Str := "@import url(/a.css);".data

/-- The absolute URL of `cssA`. -/
def urlA : Str := "http://src.test/a.css".data

/-- The absolute URL of `cssB`. -/
def urlB : Str := "http://src.test/b.css".data

/-- The two-unit `@import` cycle: `/a.css` imports `/b.css` and vice versa. -/
def cycCtx : CssCtx where
  origin := "http://src.test".data
  localize := fun _ u => u
  fetch := fun u =>
    if u = urlA then .ok cssA
    else if u = urlB then .ok cssB
    else .transportError

/-- A concrete localizer oracle for the style-attribute witness. -/
def styleLocW : Str → Str := fun x =>
  if x = "http://s.t/a".data then "/assets/images/h1.png".data
  else "/assets/images/h22.png".data

/-! ## Theorems -/

/-! ### Generic facts about the string primitives -/

theorem pOf_eq_true_iff (p : Str) : ∀ s : Str, pOf p s = true ↔ ∃ t, s = p ++ t := by
  induction p with
  | nil => intro s; simp [pOf]
  | cons a p ih =>
    intro s
    cases s with
    | nil => simp [pOf]
    | cons b s =>
      simp only [pOf, Bool.and_eq_true, decide_eq_true_eq, ih, List.cons_append,
        List.cons.injEq]
      constructor
      · rintro ⟨rfl, t, rfl⟩; exact ⟨t, rfl, rfl⟩
      · rintro ⟨t, rfl, rfl⟩; exact ⟨rfl, t, rfl⟩

theorem pOf_append (p t : Str) : pOf p (p ++ t) = true :=
  (pOf_eq_true_iff p (p ++ t)).2 ⟨t, rfl⟩

theorem pOf_refl (p : Str) : pOf p p = true := by
  have := pOf_append p []
  simpa using this

/-! ### Claims about the Asset Localizer -/

/-- Claim C3: for every non-empty URL and asset type whose destination file
does not yet exist, a fetch that returns a non-success status or throws a
transport error makes `downloadAndRewriteAsset` log a diagnostic and return
the original absolute URL unchanged — not a local path and not a propagated
error. -/
theorem claim3_fetch_failure_returns_original (ctx : DlCtx) (fs : List Str)
    (url assetType ext : Str) (hne : url ≠ [])
    (hext : assetExtension assetType url = some ext)
    (hmiss : publicPathOf ctx.hashHex assetType url ext ∉ fs)
    (hfail : ctx.fetch url = .httpError ∨ ctx.fetch url = .transportError) :
    downloadAndRewriteAsset ctx fs url assetType = some ⟨url, fs, 1, true⟩ := by
  rcases hfail with h | h <;>
    simp [downloadAndRewriteAsset, hne, hext, hmiss, h]

/-- Witness for C3 at a concrete input. -/
theorem claim3_witness :
    ("http://src.test/x.png".data : Str) ≠ [] ∧
    dlCtxFail.fetch "http://src.test/x.png".data = .httpError ∧
    downloadAndRewriteAsset dlCtxFail [] "http://src.test/x.png".data "images".data =
      some ⟨"http://src.test/x.png".data, [], 1, true⟩ :=
  ⟨by decide, by decide,
    claim3_fetch_failure_returns_original dlCtxFail [] "http://src.test/x.png".data
      "images".data ".png".data (by decide) (by decide) (by decide)
      (Or.inl (by decide))⟩

/-- Claim C4: a cached destination is returned without any fetch, and two
sequential calls with the same URL and asset type (the first one succeeding)
perform exactly one fetch in total and return the identical local path. -/
theorem claim4_localizer_idempotent (ctx : DlCtx) (fs : List Str)
    (url assetType ext : Str) (hne : url ≠ [])
    (hext : assetExtension assetType url = some ext)
    (hmiss : publicPathOf ctx.hashHex assetType url ext ∉ fs)
    (hok : ∃ b, ctx.fetch url = .ok b) :
    (∀ fs2 : List Str,
        publicPathOf ctx.hashHex assetType url ext ∈ fs2 →
        downloadAndRewriteAsset ctx fs2 url assetType =
          some ⟨publicPathOf ctx.hashHex assetType url ext, fs2, 0, false⟩) ∧
    ∃ o1 o2 : DlOutcome,
      downloadAndRewriteAsset ctx fs url assetType = some o1 ∧
      downloadAndRewriteAsset ctx o1.fsAfter url assetType = some o2 ∧
      o1.result = publicPathOf ctx.hashHex assetType url ext ∧
      o2.result = o1.result ∧ o1.fetchCount + o2.fetchCount = 1 := by
  obtain ⟨b, hb⟩ := hok
  constructor
  · intro fs2 h2
    simp [downloadAndRewriteAsset, hne, hext, h2]
  · refine ⟨⟨publicPathOf ctx.hashHex assetType url ext,
      publicPathOf ctx.hashHex assetType url ext :: fs, 1, false⟩,
      ⟨publicPathOf ctx.hashHex assetType url ext,
        publicPathOf ctx.hashHex assetType url ext :: fs, 0, false⟩, ?_, ?_, rfl, rfl, rfl⟩
    · simp [downloadAndRewriteAsset, hne, hext, hmiss, hb]
    · simp [downloadAndRewriteAsset, hne, hext, List.contains_cons]

/-- Witness for C4 at a concrete input. -/
theorem claim4_witness :
    ("http://src.test/x.png".data : Str) ≠ [] ∧
    (∃ o1 o2 : DlOutcome,
      downloadAndRewriteAsset dlCtxOk [] "http://src.test/x.png".data "images".data =
        some o1 ∧
      downloadAndRewriteAsset dlCtxOk o1.fsAfter "http://src.test/x.png".data
        "images".data = some o2 ∧
      o1.result = publicPathOf dlCtxOk.hashHex "images".data
        "http://src.test/x.png".data ".png".data ∧
      o2.result = o1.result ∧ o1.fetchCount + o2.fetchCount = 1) :=
  ⟨by decide,
    (claim4_localizer_idempotent dlCtxOk [] "http://src.test/x.png".data
      "images".data ".png".data (by decide) (by decide) (by decide)
      ⟨"body".data, by decide⟩).2⟩

/-! ### Claims about the Link Classifier -/

/-- Claim C5: with source origin `http://src.test` and no configured path
prefix, `/about` (present in the friendly path index) rewrites to
`/pages/about`, `/random` (absent) rewrites to the absolute
`http://src.test/random`, and the external `https://external.example/x` is
returned unchanged. -/
theorem claim5_anchor_scenarios :
    classifyHref "http://src.test".data [] ["/about".data] "/about".data =
      "/pages/about".data ∧
    classifyHref "http://src.test".data [] ["/about".data] "/random".data =
      "http://src.test/random".data ∧
    classifyHref "http://src.test".data [] ["/about".data]
      "https://external.example/x".data = "https://external.example/x".data := by
  decide

/-- Counterexample for C2: with prefix `/web/guest` configured and the index
containing the unstripped path `/web/guest/about` (but not the stripped
`/about`), the classifier does **not** rewrite to the static route — it falls
through to the absolute URL, because the unstripped path is only tested in the
`else` branch. -/
theorem claim2_counterexample :
    classifyHref "http://src.test".data "/web/guest".data ["/web/guest/about".data]
      "/web/guest/about".data = "http://src.test/web/guest/about".data ∧
    classifyHref "http://src.test".data "/web/guest".data ["/web/guest/about".data]
      "/web/guest/about".data ≠ "/pages/web/guest/about".data := by
  decide

/-- Claim C2 (amended): when a non-empty prefix is configured and the path
starts with it, only the prefix-stripped path is tested against the friendly
path index; the unstripped path is not consulted in that case. -/
theorem claim2_amended_only_stripped_tested (pfx : Str) (index : List Str)
    (p : Str) (h1 : pfx ≠ []) (h2 : pOf pfx p = true) :
    matchFriendly pfx index p =
      (if index.contains (p.drop pfx.length) then
        some ("/pages".data ++ p.drop pfx.length)
       else none) := by
  unfold matchFriendly
  rw [if_pos]
  simp [h1, h2, List.isEmpty_iff]

/-- Witness for the amended C2 at a concrete input. -/
theorem claim2_amended_witness :
    ("/web/guest".data : Str) ≠ [] ∧
    matchFriendly "/web/guest".data ["/web/guest/about".data] "/web/guest/about".data
      = none :=
  ⟨by decide, by
    have h := claim2_amended_only_stripped_tested "/web/guest".data
      ["/web/guest/about".data] "/web/guest/about".data (by decide) (by decide)
    rw [h]
    decide⟩


/-! ### Claim C8: end-to-end image localization -/

/-- Claim C8: an `<img src="/image.png">` under source origin
`http://src.test` has its `src` rewritten to
`/assets/images/<hash("http://src.test/image.png")>.png`, where `hash` is the
hex digest (`DlCtx.hashHex`, modelling the SHA-256 of `crypto.createHash`) of
the absolute URL and the extension is taken from the URL, under the per-type
`/assets/images/` directory — for every hash function and every cache state,
provided the fetch succeeds. -/
theorem claim8_img_localized_path (ctx : DlCtx) (fs : List Str) (body : Str)
    (hok : ctx.fetch "http://src.test/image.png".data = .ok body) :
    rewriteImgSrc ctx fs "http://src.test".data "/image.png".data =
      some ("/assets/images/".data ++
        ctx.hashHex "http://src.test/image.png".data ++ ".png".data) := by
  rw [rewriteImgSrc, if_pos (by decide),
    show resolveUrl "http://src.test".data "/image.png".data =
      "http://src.test/image.png".data from by decide]
  rw [downloadAndRewriteAsset,
    if_neg (by decide : ¬("http://src.test/image.png".data : Str) = []),
    show assetExtension "images".data "http://src.test/image.png".data =
      some ".png".data from by decide]
  simp only []
  split
  · simp [publicPathOf]
  · rw [hok]
    simp [publicPathOf]

/-- Witness for C8 at a concrete hash function and fetch oracle. -/
theorem claim8_witness :
    dlCtxOk.fetch "http://src.test/image.png".data = .ok "body".data ∧
    rewriteImgSrc dlCtxOk [] "http://src.test".data "/image.png".data =
      some "/assets/images/0abc.png".data :=
  ⟨by decide, by
    have h := claim8_img_localized_path dlCtxOk [] "body".data (by decide)
    rw [h]
    decide⟩

/-! ### Claim C9: missing sprite symbol is non-fatal -/

/-- Claim C9: for a `<use>` href of the form `spriteURL#fragment` with the
sprite URL on the source origin, a missing fragment, or a fragment whose id is
not found in the localized sprite file, leaves the reference unresolved
(nothing replaced, the href unchanged), logs a warning, and returns normally
(the handler is a total function, so the condition never aborts the document
rewrite). -/
theorem claim9_missing_sprite_symbol_nonfatal (origin : Str)
    (localize : Str → Str) (lookup : Str → Str → Option SpriteSym)
    (parentSvg : Option (Str × Str)) (href : Str)
    (hne : (splitOnC '#' href).headD [] ≠ [])
    (hon : pOf origin ((splitOnC '#' href).headD []) = true)
    (hmiss : ((splitOnC '#' href).get? 1).getD [] = [] ∨
      lookup (localize ((splitOnC '#' href).headD []))
        (((splitOnC '#' href).get? 1).getD []) = none) :
    handleUse origin localize lookup parentSvg href = ⟨none, href, true⟩ := by
  simp only [List.headD_eq_head?_getD, List.get?_eq_getElem?] at hne hon hmiss
  unfold handleUse
  rcases hmiss with h | h <;>
    simp [hne, hon, h, List.isEmpty_iff, List.headD_eq_head?_getD]

/-- Witness for C9: a sprite reference whose fragment id the localized sprite
file does not contain. -/
theorem claim9_witness :
    pOf "http://src.test".data
      ((splitOnC '#' "http://src.test/icons.svg#user".data).headD []) = true ∧
    handleUse "http://src.test".data (fun _ => "/assets/images/0abc.svg".data)
      (fun _ _ => none) (some ("cls".data, "img".data))
      "http://src.test/icons.svg#user".data =
      ⟨none, "http://src.test/icons.svg#user".data, true⟩ :=
  ⟨by decide,
    claim9_missing_sprite_symbol_nonfatal "http://src.test".data
      (fun _ => "/assets/images/0abc.svg".data) (fun _ _ => none)
      (some ("cls".data, "img".data)) "http://src.test/icons.svg#user".data
      (by decide) (by decide) (Or.inr rfl)⟩

/-! ### Claim C10: unconditional stylesheet/script tag removal -/

mutual
theorem removeTagsNode_clean0 : ∀ n : HNode, isRemovableTag n = false →
    hasRemovableNode (removeTagsNode n) = false
  | .text _, _ => rfl
  | .elem tag attrs kids, h => by
    simp only [removeTagsNode, hasRemovableNode]
    rw [show isRemovableTag (.elem tag attrs (removeTagsForest kids)) =
        isRemovableTag (.elem tag attrs kids) from rfl, h,
      removeTagsForest_clean0 kids]
    rfl

theorem removeTagsForest_clean0 :
    ∀ f : HForest, hasRemovableForest (removeTagsForest f) = false
  | .nil => rfl
  | .cons n rest => by
    simp only [removeTagsForest]
    by_cases h : isRemovableTag n = true
    · rw [if_pos h]
      exact removeTagsForest_clean0 rest
    · rw [if_neg h]
      simp only [hasRemovableForest]
      rw [removeTagsNode_clean0 n (by simpa using h), removeTagsForest_clean0 rest]
      rfl
end

/-- Claim C10: the removal pass of `rewriteAndDownloadAssets` deletes every
`link[rel="stylesheet"]` element and every `script` element carrying a `src`
attribute from every document tree, unconditionally — the pass takes no
discovered-URL sets, so tags whose URLs are not in those sets are removed as
well — and the resulting tree contains no stylesheet link tag and no external
script tag. -/
theorem claim10_all_stylesheet_links_and_scripts_removed (f : HForest) :
    hasRemovableForest (removeTagsForest f) = false :=
  removeTagsForest_clean0 f

/-! ### Claim C1: `@import` cycle termination -/

theorem processImports_cons_ok (ctx : CssCtx) (rec : Str → Str → Option Str)
    (base w u abs txt : Str) (rest : List (Str × Str))
    (hu : ¬u.isEmpty = true) (habs : resolveUrl base u = abs)
    (hon : pOf ctx.origin abs = true) (hne : ¬abs = base)
    (hfetch : ctx.fetch abs = .ok txt) :
    processImports ctx rec base ((w, u) :: rest) =
      match rec txt abs with
      | none => none
      | some r =>
        match processImports ctx rec base rest with
        | none => none
        | some t => some ((w, r) :: t) := by
  simp only [processImports, habs]
  rw [if_neg hu, if_pos hon, if_neg hne, hfetch]

theorem cycle_stepA (n : Nat)
    (hB : processAndRewriteCssUrls cycCtx n cssB urlB = none) :
    processAndRewriteCssUrls cycCtx (n + 1) cssA urlA = none := by
  have e1 : scanImports cssA = [(cssA, "/b.css".data)] := by decide
  simp only [processAndRewriteCssUrls, e1]
  rw [processImports_cons_ok cycCtx _ urlA cssA "/b.css".data urlB cssB []
    (by decide) (by decide) (by decide) (by decide) (by decide)]
  rw [hB]

theorem cycle_stepB (n : Nat)
    (hA : processAndRewriteCssUrls cycCtx n cssA urlA = none) :
    processAndRewriteCssUrls cycCtx (n + 1) cssB urlB = none := by
  have e1 : scanImports cssB = [(cssB, "/a.css".data)] := by decide
  simp only [processAndRewriteCssUrls, e1]
  rw [processImports_cons_ok cycCtx _ urlB cssB "/a.css".data urlA cssA []
    (by decide) (by decide) (by decide) (by decide) (by decide)]
  rw [hA]

/-- Claim C1: on the two-unit `@import` cycle (`/a.css` imports `/b.css` and
`/b.css` imports `/a.css`), the Stylesheet Rewrite Engine's recursion never
completes: for every recursion-depth budget the fuel-indexed model returns
`none`.  The source's cycle check compares the resolved import URL only with
the immediate base URL (`absoluteUrl === baseUrl`), not with every ancestor of
the current recursion, so a cycle of length two is re-expanded forever —
refuting termination for cycles of any length. -/
theorem claim1_two_unit_cycle_diverges (n : Nat) :
    processAndRewriteCssUrls cycCtx n cssA urlA = none ∧
    processAndRewriteCssUrls cycCtx n cssB urlB = none := by
  induction n with
  | zero => exact ⟨rfl, rfl⟩
  | succ n ih => exact ⟨cycle_stepA n ih.2, cycle_stepB n ih.1⟩

/-- In contrast, a direct self-import (a cycle of length one) is caught by the
`absoluteUrl === baseUrl` check: the directive is dropped and the rest of the
stylesheet survives, already at recursion depth one. -/
theorem self_import_cycle_dropped :
    processAndRewriteCssUrls cycCtx 1 "@import url(/a.css); p{}".data urlA =
      some " p{}".data := by decide

/-! ### Claim C6: srcset rewriting -/

theorem splitOnC_ne_nil (sep : Char) (s : Str) : splitOnC sep s ≠ [] := by
  cases s with
  | nil => simp [splitOnC]
  | cons c rest =>
    simp only [splitOnC]
    split
    · simp
    · split <;> simp

theorem splitOnC_append_sep (sep : Char) (u d : Str) (h : ∀ c ∈ u, ¬c = sep) :
    splitOnC sep (u ++ sep :: d) = u :: splitOnC sep d := by
  induction u with
  | nil => simp [splitOnC]
  | cons c u ih =>
    have hc : ¬c = sep := h c (by simp)
    have ih2 := ih (fun x hx => h x (by simp [hx]))
    simp only [List.cons_append, splitOnC, if_neg hc]
    rw [show List.append u (sep :: d) = u ++ sep :: d from rfl, ih2]

theorem splitOnC_no_sep (sep : Char) (d : Str) (h : ∀ c ∈ d, ¬c = sep) :
    splitOnC sep d = [d] := by
  induction d with
  | nil => rfl
  | cons c d ih =>
    have hc : ¬c = sep := h c (by simp)
    have ih2 := ih (fun x hx => h x (by simp [hx]))
    simp only [splitOnC, ih2, if_neg hc]

theorem trimL_no_ws_ends (s : Str)
    (hh : ∀ c, s.head? = some c → isWsC c = false)
    (hl : ∀ c, s.getLast? = some c → isWsC c = false) : trimL s = s := by
  unfold trimL
  have h1 : s.dropWhile isWsC = s := by
    cases s with
    | nil => rfl
    | cons c r =>
      rw [List.dropWhile_cons, if_neg]
      simp [hh c rfl]
  rw [h1]
  have h2 : s.reverse.dropWhile isWsC = s.reverse := by
    cases hr : s.reverse with
    | nil => rfl
    | cons c r =>
      rw [List.dropWhile_cons, if_neg]
      have : s.getLast? = some c := by
        rw [← List.head?_reverse, hr]
        rfl
      simp [hl c this]
  rw [h2, List.reverse_reverse]

/-- Claim C6 (amended): the srcset rewrite preserves the number and order of
candidates; a candidate whose origin-relative URL and non-empty descriptor are
separated by a **single** space keeps its descriptor token verbatim after the
URL is replaced by its localized path; a candidate whose first token is empty
or not origin-relative is returned exactly as it was.  (The unamended claim
fails when URL and descriptor are separated by more than one space: the
descriptor is then dropped — see the counterexample.) -/
theorem claim6_amended (L : Str → Str) (base u d : Str)
    (hu : ∀ c ∈ u, isWsC c = false) (hd : ∀ c ∈ d, isWsC c = false)
    (hdne : d ≠ []) (hslash : pOf "/".data u = true) :
    rewriteSrcsetCandidate L base (u ++ ' ' :: d) =
      L (resolveUrl base u) ++ ' ' :: d ∧
    (∀ s : Str,
      ((splitOnC ' ' (trimL s)).headD []).isEmpty = true ∨
        pOf "/".data ((splitOnC ' ' (trimL s)).headD []) = false →
      rewriteSrcsetCandidate L base s = s) ∧
    (∀ srcset : Str,
      rewriteSrcset L base srcset =
        joinWith ", ".data
          ((splitOnC ',' srcset).map (rewriteSrcsetCandidate L base)) ∧
      ((splitOnC ',' srcset).map (rewriteSrcsetCandidate L base)).length =
        (splitOnC ',' srcset).length ∧
      ∀ i : Nat,
        ((splitOnC ',' srcset).map (rewriteSrcsetCandidate L base)).get? i =
          ((splitOnC ',' srcset).get? i).map (rewriteSrcsetCandidate L base)) := by
  have hune : u ≠ [] := by
    intro h
    rw [h] at hslash
    exact absurd hslash (by decide)
  refine ⟨?_, ?_, ?_⟩
  · have htrim : trimL (u ++ ' ' :: d) = u ++ ' ' :: d := by
      apply trimL_no_ws_ends
      · intro c hc
        cases u with
        | nil => exact absurd rfl hune
        | cons a r =>
          simp only [List.cons_append, List.head?_cons, Option.some.injEq] at hc
          exact hu c (by simp [← hc])
      · intro c hc
        rw [List.getLast?_append_of_ne_nil u (by simp)] at hc
        have hlast : d.getLast? = some c := by
          cases d with
          | nil => exact absurd rfl hdne
          | cons b r => simpa using hc
        exact hd c (List.mem_of_mem_getLast? (Option.mem_def.mpr hlast))
    have hsplit : splitOnC ' ' (trimL (u ++ ' ' :: d)) = [u, d] := by
      rw [htrim,
        splitOnC_append_sep ' ' u d (fun c hc => by
          have h2 := hu c hc
          simp only [isWsC, Bool.or_eq_false_iff, decide_eq_false_iff_not] at h2
          exact h2.1.1.1),
        splitOnC_no_sep ' ' d (fun c hc => by
          have h2 := hd c hc
          simp only [isWsC, Bool.or_eq_false_iff, decide_eq_false_iff_not] at h2
          exact h2.1.1.1)]
    have hcond : (!List.isEmpty u && pOf "/".data u) = true := by
      rw [hslash]
      cases u with
      | nil => exact absurd rfl hune
      | cons a r => rfl
    unfold rewriteSrcsetCandidate
    simp only [hsplit, List.headD_cons, hcond, if_pos]
    have hdemp : d.isEmpty = false := by
      cases d with
      | nil => exact absurd rfl hdne
      | cons b r => rfl
    simp [hdemp]
  · intro s h
    unfold rewriteSrcsetCandidate
    rcases h with h | h
    · rw [if_neg]
      rw [h]
      simp
    · rw [if_neg]
      rw [h]
      simp
  · intro srcset
    refine ⟨rfl, by simp, fun i => ?_⟩
    simp [List.getElem?_map]

/-- Counterexample to C6 as stated: in the candidate `"/img.png  2x"` (two
spaces) the trailing descriptor token `2x` is **not** preserved — the rewrite
drops it, because the code takes `parts[1]` of a single-space split, which is
the empty string here. -/
theorem claim6_counterexample :
    rewriteSrcset (fun _ => "/assets/images/h.png".data) "http://src.test".data
      "/img.png  2x".data = "/assets/images/h.png".data ∧
    occursIn "2x".data "/img.png  2x".data = true ∧
    occursIn "2x".data (rewriteSrcset (fun _ => "/assets/images/h.png".data)
      "http://src.test".data "/img.png  2x".data) = false := by decide

/-- Witness for the amended C6 at a concrete input. -/
theorem claim6_witness :
    pOf "/".data "/a.png".data = true ∧ ("2x".data : Str) ≠ [] ∧
    rewriteSrcsetCandidate (fun _ => "/LL.png".data) "http://s.t".data
      "/a.png 2x".data = "/LL.png 2x".data :=
  ⟨by decide, by decide, by
    have h := (claim6_amended (fun _ => "/LL.png".data) "http://s.t".data
      "/a.png".data "2x".data (by decide) (by decide) (by decide) (by decide)).1
    rw [show ("/a.png 2x".data : Str) = "/a.png".data ++ ' ' :: "2x".data from by decide,
      h]
    decide⟩

/-! ### Claim C7: longest-match-safe inline style rewriting

The next block develops the string lemmas needed to track the scanning and
replacing regexes through a style attribute containing two `url()` references
whose URLs are in a proper-prefix relation. -/

theorem pOf_false_of_no_open (s : Str) (h : '(' ∉ s.take 4) :
    pOf "url(".data s = false := by
  by_contra hx
  rw [Bool.not_eq_false, pOf_eq_true_iff] at hx
  obtain ⟨t, rfl⟩ := hx
  refine h ?_
  rw [show (("url(".data ++ t).take 4 : Str) = "url(".data from rfl]
  decide

theorem take_subset_take {m n : Nat} (l : Str) (h : m ≤ n) :
    l.take m ⊆ l.take n := by
  intro x hx
  rw [show m = min m n from (Nat.min_eq_left h).symm, ← List.take_take] at hx
  exact List.take_subset _ _ hx

theorem no_open_take4_append (x y : Str) (hx : x ≠ []) (h1 : '(' ∉ x)
    (h2 : '(' ∉ y.take 3) : '(' ∉ (x ++ y).take 4 := by
  rw [List.take_append_eq_append_take]
  intro hmem
  rcases List.mem_append.1 hmem with h | h
  · exact h1 (List.take_subset _ _ h)
  · have hle : 4 - x.length ≤ 3 := by
      cases x with
      | nil => exact absurd rfl hx
      | cons c r =>
        simp only [List.length_cons]
        omega
    exact h2 (take_subset_take y hle h)

theorem urlScanAt_none_of_no_open (s : Str) (h : '(' ∉ s.take 4) :
    urlScanAt s = none := by
  rw [urlScanAt, pOf_false_of_no_open s h]
  rfl

theorem urlRepMatchAt_none_of_no_open (orig s : Str) (h : '(' ∉ s.take 4) :
    urlRepMatchAt orig s = none := by
  rw [urlRepMatchAt, pOf_false_of_no_open s h]
  rfl

theorem scanUrlsGo_skip (x y : Str) (h1 : '(' ∉ x) (h2 : '(' ∉ y.take 3) :
    ∀ f : Nat, scanUrlsGo (x.length + f) (x ++ y) = scanUrlsGo f y := by
  induction x with
  | nil => intro f; simp
  | cons c x ih =>
    intro f
    have hnone : urlScanAt (c :: (x ++ y)) = none :=
      urlScanAt_none_of_no_open ((c :: x) ++ y)
        (no_open_take4_append (c :: x) y (by simp) h1 h2)
    rw [show (c :: x).length + f = (x.length + f) + 1 from by
      simp only [List.length_cons]; omega]
    rw [show ((c :: x) ++ y : Str) = c :: (x ++ y) from rfl]
    rw [scanUrlsGo, hnone]
    exact ih (fun hm => h1 (by simp [hm])) f

theorem scanUrlsGo_none (s : Str) (h : '(' ∉ s) :
    ∀ f : Nat, scanUrlsGo f s = [] := by
  induction s with
  | nil => intro f; cases f <;> rfl
  | cons c r ih =>
    intro f
    cases f with
    | zero => rfl
    | succ f =>
      have hnone : urlScanAt (c :: r) = none :=
        urlScanAt_none_of_no_open _ (fun hm => h (List.take_subset _ _ hm))
      rw [scanUrlsGo, hnone]
      exact ih (fun hm => h (by simp [hm])) f

theorem repUrlGo_skip (orig loc x y : Str) (h1 : '(' ∉ x) (h2 : '(' ∉ y.take 3) :
    ∀ f : Nat, repUrlGo orig loc (x.length + f) (x ++ y) = x ++ repUrlGo orig loc f y := by
  induction x with
  | nil => intro f; simp
  | cons c x ih =>
    intro f
    have hnone : urlRepMatchAt orig (c :: (x ++ y)) = none :=
      urlRepMatchAt_none_of_no_open orig ((c :: x) ++ y)
        (no_open_take4_append (c :: x) y (by simp) h1 h2)
    rw [show (c :: x).length + f = (x.length + f) + 1 from by
      simp only [List.length_cons]; omega]
    rw [show ((c :: x) ++ y : Str) = c :: (x ++ y) from rfl]
    rw [repUrlGo, hnone]
    rw [ih (fun hm => h1 (by simp [hm])) f]
    rfl

theorem repUrlGo_none (orig loc s : Str) (h : '(' ∉ s) :
    ∀ f : Nat, repUrlGo orig loc f s = s := by
  induction s with
  | nil => intro f; cases f <;> rfl
  | cons c r ih =>
    intro f
    cases f with
    | zero => rfl
    | succ f =>
      have hnone : urlRepMatchAt orig (c :: r) = none :=
        urlRepMatchAt_none_of_no_open _ _ (fun hm => h (List.take_subset _ _ hm))
      rw [repUrlGo, hnone, ih (fun hm => h (by simp [hm])) f]

theorem findIdx?_close_append (u y : Str) (h : ')' ∉ u) :
    findIdx? (fun c => c = ')') (u ++ ')' :: y) = some u.length := by
  induction u with
  | nil => simp [findIdx?]
  | cons c r ih =>
    have hc : (c = ')') = False := by
      simp only [eq_iff_iff, iff_false]
      intro hx
      exact h (by simp [hx])
    rw [show ((c :: r) ++ ')' :: y : Str) = c :: (r ++ ')' :: y) from rfl]
    rw [findIdx?]
    simp only [decide_eq_true_eq, hc, if_false]
    rw [ih (fun hm => h (by simp [hm]))]
    rfl

theorem pOf_append_cancel (u a b : Str) : pOf (u ++ a) (u ++ b) = pOf a b := by
  induction u with
  | nil => rfl
  | cons c r ih => simp [pOf, ih]

theorem pOf_quote_mismatch (q : Char) :
    ∀ u w r r' : Str, q ∉ u → q ∉ w → u ≠ w →
      pOf (u ++ q :: r) (w ++ q :: r') = false := by
  intro u
  induction u with
  | nil =>
    intro w r r' _ hw hne
    cases w with
    | nil => exact absurd rfl hne
    | cons x w2 =>
      have hx : (q = x) = False := by
        simp only [eq_iff_iff, iff_false]
        intro hx
        exact hw (by simp [hx.symm])
      simp [pOf, hx]
  | cons a u2 ih =>
    intro w r r' hu hw hne
    cases w with
    | nil =>
      have hx : (a = q) = False := by
        simp only [eq_iff_iff, iff_false]
        intro hx
        exact hu (by simp [hx])
      simp [pOf, hx]
    | cons x w2 =>
      by_cases hax : a = x
      · subst hax
        rw [show ((a :: u2) ++ q :: r : Str) = a :: (u2 ++ q :: r) from rfl,
          show ((a :: w2) ++ q :: r' : Str) = a :: (w2 ++ q :: r') from rfl]
        simp only [pOf, decide_eq_true_eq, if_pos rfl]
        rw [ih w2 r r' (fun hm => hu (by simp [hm])) (fun hm => hw (by simp [hm]))
          (fun he => hne (by rw [he]))]
        simp
      · simp [pOf, hax]

theorem urlScanAt_wrap (u0 y : Str) (hnp : ')' ∉ ('/' :: u0 : Str)) :
    urlScanAt ("url(".data ++ (('/' :: u0) ++ ')' :: y)) =
      some ("url(".data ++ (('/' :: u0) ++ [')']), '/' :: u0, 4 + ('/' :: u0).length + 1) := by
  rw [urlScanAt, if_pos (pOf_append "url(".data (('/' :: u0) ++ ')' :: y))]
  rw [show (("url(".data ++ (('/' :: u0) ++ ')' :: y)).drop 4 : Str) =
    '/' :: (u0 ++ ')' :: y) from rfl]
  dsimp only []
  rw [show (pOf "data:".data ('/' :: (u0 ++ ')' :: y)) : Bool) = false from rfl]
  simp only [Bool.false_or]
  rw [show ((decide (('/' : Char) = '\'') || decide (('/' : Char) = '"')) : Bool) = false from rfl]
  simp only [Bool.false_and, Bool.false_eq_true, if_false, if_neg]
  rw [show (findIdx? (fun c => decide (c = ')')) ('/' :: (u0 ++ ')' :: y)) : Option Nat) =
    some ('/' :: u0).length from by
      have h3 := findIdx?_close_append ('/' :: u0) y hnp
      rw [show ((('/' :: u0) ++ ')' :: y : Str)) = '/' :: (u0 ++ ')' :: y) from rfl] at h3
      exact h3]
  dsimp only []
  rw [show (List.take ('/' :: u0).length ('/' :: (u0 ++ ')' :: y)) : Str) = '/' :: u0 from by
    have h4 := List.take_left ('/' :: u0) (')' :: y)
    rw [show ((('/' :: u0) ++ ')' :: y : Str)) = '/' :: (u0 ++ ')' :: y) from rfl] at h4
    exact h4]
  rw [show (List.take (4 + ('/' :: u0).length + 1)
      ((['u', 'r', 'l', '('] : Str) ++ (('/' :: u0) ++ ')' :: y)) : Str) =
    (['u', 'r', 'l', '('] : Str) ++ (('/' :: u0) ++ [')']) from by
      have h1 : ((['u', 'r', 'l', '('] : Str) ++ (('/' :: u0) ++ ')' :: y) : Str) =
          ((['u', 'r', 'l', '('] : Str) ++ (('/' :: u0) ++ [')'])) ++ y := by simp
      have h2 : 4 + ('/' :: u0).length + 1 =
          ((['u', 'r', 'l', '('] : Str) ++ (('/' :: u0) ++ [')']) : Str).length := by
        simp
        omega
      rw [h1, h2, List.take_left]]

theorem scanUrlsGo_match (u0 y : Str) (hnp : ')' ∉ ('/' :: u0 : Str)) (f : Nat) :
    scanUrlsGo (f + 1) ("url(".data ++ (('/' :: u0) ++ ')' :: y)) =
      ("url(".data ++ (('/' :: u0) ++ [')']), '/' :: u0) :: scanUrlsGo f y := by
  have hs : ("url(".data ++ (('/' :: u0) ++ ')' :: y) : Str) =
      'u' :: 'r' :: 'l' :: '(' :: (('/' :: u0) ++ ')' :: y) := rfl
  rw [hs, scanUrlsGo]
  have hw := urlScanAt_wrap u0 y hnp
  rw [hs] at hw
  rw [hw]
  dsimp only []
  rw [show (List.drop (4 + ('/' :: u0).length + 1)
      ('u' :: 'r' :: 'l' :: '(' :: (('/' :: u0) ++ ')' :: y)) : Str) = y from by
    have h1 : ('u' :: 'r' :: 'l' :: '(' :: (('/' :: u0) ++ ')' :: y) : Str) =
        ('u' :: 'r' :: 'l' :: '(' :: (('/' :: u0) ++ [')'])) ++ y := by simp
    have h2 : 4 + ('/' :: u0).length + 1 =
        ('u' :: 'r' :: 'l' :: '(' :: (('/' :: u0) ++ [')']) : Str).length := by
      simp
      omega
    rw [h1, h2, List.drop_left]]

theorem take3_url (z : Str) : '(' ∉ (("url(".data ++ z).take 3 : Str) := by
  rw [show (("url(".data ++ z).take 3 : Str) = ['u', 'r', 'l'] from rfl]
  decide

theorem scanUrls_two_refs (a b c u0 d : Str)
    (ha : '(' ∉ a) (hb : '(' ∉ b) (hc : '(' ∉ c)
    (hu : ')' ∉ ('/' :: u0 : Str)) (hv : ')' ∉ ('/' :: (u0 ++ d) : Str)) :
    scanUrls (a ++ ("url(".data ++ (('/' :: u0) ++ ')' ::
        (b ++ ("url(".data ++ (('/' :: (u0 ++ d)) ++ ')' :: c)))))) =
      [("url(".data ++ (('/' :: u0) ++ [')']), '/' :: u0),
       ("url(".data ++ (('/' :: (u0 ++ d)) ++ [')']), '/' :: (u0 ++ d))] := by
  rw [scanUrls]
  rw [show (a ++ ("url(".data ++ (('/' :: u0) ++ ')' ::
        (b ++ ("url(".data ++ (('/' :: (u0 ++ d)) ++ ')' :: c))))) : Str).length =
      a.length + ((b.length +
        ((2 * u0.length + d.length + c.length + 10) + 1)) + 1) from by
    simp
    omega]
  rw [scanUrlsGo_skip a _ ha (take3_url _)]
  rw [scanUrlsGo_match u0 _ hu]
  rw [scanUrlsGo_skip b _ hb (take3_url _)]
  rw [scanUrlsGo_match (u0 ++ d) c hv]
  rw [scanUrlsGo_none c hc]

theorem urlRepMatchAt_none_head (orig : Str) (ch : Char) (rest : Str)
    (h : ch ≠ 'u') : urlRepMatchAt orig (ch :: rest) = none := by
  rw [urlRepMatchAt, if_neg]
  intro hx
  rw [pOf_eq_true_iff] at hx
  obtain ⟨t, ht⟩ := hx
  rw [show ("url(".data ++ t : Str) = 'u' :: ('r' :: 'l' :: '(' :: t) from rfl] at ht
  exact h (List.head_eq_of_cons_eq ht)

theorem repUrlGo_cons_none (orig loc : Str) (ch : Char) (rest : Str) (f : Nat)
    (hm : urlRepMatchAt orig (ch :: rest) = none) :
    repUrlGo orig loc (f + 1) (ch :: rest) = ch :: repUrlGo orig loc f rest := by
  rw [repUrlGo, hm]

theorem repUrlGo_url_head_nomatch (orig loc z : Str) (f : Nat)
    (hm : urlRepMatchAt orig ("url(".data ++ z) = none) :
    repUrlGo orig loc ((((f + 1) + 1) + 1) + 1) ("url(".data ++ z) =
      'u' :: 'r' :: 'l' :: '(' :: repUrlGo orig loc f z := by
  rw [show ("url(".data ++ z : Str) = 'u' :: ('r' :: 'l' :: '(' :: z) from rfl]
  rw [repUrlGo_cons_none orig loc 'u' ('r' :: 'l' :: '(' :: z) _ (by
    rw [show ('u' :: ('r' :: 'l' :: '(' :: z) : Str) = "url(".data ++ z from rfl]
    exact hm)]
  rw [repUrlGo_cons_none orig loc 'r' ('l' :: '(' :: z) _
    (urlRepMatchAt_none_head orig 'r' _ (by decide))]
  rw [repUrlGo_cons_none orig loc 'l' ('(' :: z) _
    (urlRepMatchAt_none_head orig 'l' _ (by decide))]
  rw [repUrlGo_cons_none orig loc '(' z _
    (urlRepMatchAt_none_head orig '(' _ (by decide))]

theorem urlRepMatchAt_exact (z0 y : Str) :
    urlRepMatchAt ('/' :: z0) ("url(".data ++ (('/' :: z0) ++ ')' :: y)) =
      some (4 + ('/' :: z0).length + 1) := by
  rw [urlRepMatchAt, if_pos (pOf_append "url(".data (('/' :: z0) ++ ')' :: y))]
  rw [show (("url(".data ++ (('/' :: z0) ++ ')' :: y)).drop 4 : Str) =
    '/' :: (z0 ++ ')' :: y) from rfl]
  dsimp only []
  rw [show ((decide (('/' : Char) = '\'') || decide (('/' : Char) = '"')) : Bool)
    = false from rfl]
  rw [show (pOf (('/' :: z0) ++ [')']) ('/' :: (z0 ++ ')' :: y)) : Bool) = true from by
    rw [pOf_eq_true_iff]
    exact ⟨y, by simp⟩]
  simp

theorem urlRepMatchAt_longer_none (z0 d y : Str) (hd : d ≠ []) (hdp : ')' ∉ d) :
    urlRepMatchAt ('/' :: (z0 ++ d)) ("url(".data ++ (('/' :: z0) ++ ')' :: y)) =
      none := by
  rw [urlRepMatchAt, if_pos (pOf_append "url(".data (('/' :: z0) ++ ')' :: y))]
  rw [show (("url(".data ++ (('/' :: z0) ++ ')' :: y)).drop 4 : Str) =
    '/' :: (z0 ++ ')' :: y) from rfl]
  dsimp only []
  rw [show ((decide (('/' : Char) = '\'') || decide (('/' : Char) = '"')) : Bool)
    = false from rfl]
  rw [show (pOf (('/' :: (z0 ++ d)) ++ [')']) ('/' :: (z0 ++ ')' :: y)) : Bool)
    = false from by
      rw [show (('/' :: (z0 ++ d)) ++ [')'] : Str) = '/' :: (z0 ++ (d ++ [')']))
        from by simp]
      rw [show ('/' :: (z0 ++ ')' :: y) : Str) = '/' :: (z0 ++ (')' :: y)) from rfl]
      rw [show (pOf ('/' :: (z0 ++ (d ++ [')']))) ('/' :: (z0 ++ ')' :: y)) : Bool) =
        pOf (z0 ++ (d ++ [')'])) (z0 ++ ')' :: y) from by simp [pOf]]
      rw [pOf_append_cancel]
      cases d with
      | nil => exact absurd rfl hd
      | cons dh dt =>
        have hx : (dh = ')') = False := by
          simp only [eq_iff_iff, iff_false]
          intro hx
          exact hdp (by simp [hx])
        rw [show ((dh :: dt) ++ [')'] : Str) = dh :: (dt ++ [')']) from rfl]
        simp [pOf, hx]]
  simp

theorem urlRepMatchAt_quoted_none (u0 lv y : Str) (hq1 : '\'' ∉ lv)
    (hq2 : lv ≠ '/' :: u0) (hq3 : '\'' ∉ ('/' :: u0 : Str)) :
    urlRepMatchAt ('/' :: u0) ("url(".data ++ ('\'' :: (lv ++ '\'' :: ')' :: y))) =
      none := by
  rw [urlRepMatchAt, if_pos (pOf_append "url(".data ('\'' :: (lv ++ '\'' :: ')' :: y)))]
  rw [show (("url(".data ++ ('\'' :: (lv ++ '\'' :: ')' :: y))).drop 4 : Str) =
    '\'' :: (lv ++ '\'' :: ')' :: y) from rfl]
  dsimp only []
  rw [show (pOf (('/' :: u0) ++ ['\'', ')']) (lv ++ '\'' :: ')' :: y) : Bool) =
    false from by
      rw [show (('/' :: u0) ++ ['\'', ')'] : Str) = ('/' :: u0) ++ '\'' :: [')'] from rfl]
      rw [show (lv ++ '\'' :: ')' :: y : Str) = lv ++ '\'' :: (')' :: y) from rfl]
      exact pOf_quote_mismatch '\'' ('/' :: u0) lv [')'] (')' :: y) hq3 hq1
        (fun he => hq2 he.symm)]
  rw [show (pOf (('/' :: u0) ++ [')']) ('\'' :: (lv ++ '\'' :: ')' :: y)) : Bool) =
    false from rfl]
  simp

theorem repUrlGo_wrap_match (z0 y loc : Str) (f : Nat) :
    repUrlGo ('/' :: z0) loc (f + 1) ("url(".data ++ (('/' :: z0) ++ ')' :: y)) =
      ("url('".data ++ loc ++ "')".data) ++ repUrlGo ('/' :: z0) loc f y := by
  rw [show ("url(".data ++ (('/' :: z0) ++ ')' :: y) : Str) =
    'u' :: ('r' :: 'l' :: '(' :: (('/' :: z0) ++ ')' :: y)) from rfl]
  rw [repUrlGo]
  rw [show (urlRepMatchAt ('/' :: z0) ('u' :: ('r' :: 'l' :: '(' :: (('/' :: z0) ++ ')' :: y)))
      : Option Nat) = some (4 + ('/' :: z0).length + 1) from by
    rw [show ('u' :: ('r' :: 'l' :: '(' :: (('/' :: z0) ++ ')' :: y)) : Str) =
      "url(".data ++ (('/' :: z0) ++ ')' :: y) from rfl]
    exact urlRepMatchAt_exact z0 y]
  dsimp only []
  rw [show (List.drop (4 + ('/' :: z0).length + 1)
      ('u' :: ('r' :: 'l' :: '(' :: (('/' :: z0) ++ ')' :: y))) : Str) = y from by
    have h1 : ('u' :: ('r' :: 'l' :: '(' :: (('/' :: z0) ++ ')' :: y)) : Str) =
        ('u' :: 'r' :: 'l' :: '(' :: (('/' :: z0) ++ [')'])) ++ y := by simp
    have h2 : 4 + ('/' :: z0).length + 1 =
        ('u' :: 'r' :: 'l' :: '(' :: (('/' :: z0) ++ [')']) : Str).length := by
      simp
      omega
    rw [h1, h2, List.drop_left]]

theorem take3_no_open_before_url (b z : Str) (hb : '(' ∉ b) :
    '(' ∉ ((b ++ ("url(".data ++ z)).take 3 : Str) := by
  rw [List.take_append_eq_append_take]
  intro hmem
  rcases List.mem_append.1 hmem with h | h
  · exact hb (List.take_subset _ _ h)
  · exact take3_url z (take_subset_take _ (by omega) h)

theorem repUrl_pass_longer (a b c u0 d lv : Str)
    (ha : '(' ∉ a) (hb : '(' ∉ b) (hc : '(' ∉ c)
    (hu_nop : '(' ∉ ('/' :: u0 : Str))
    (hd : d ≠ []) (hdp : ')' ∉ d) :
    repUrl ('/' :: (u0 ++ d)) lv
      (a ++ ("url(".data ++ (('/' :: u0) ++ ')' ::
        (b ++ ("url(".data ++ (('/' :: (u0 ++ d)) ++ ')' :: c)))))) =
      a ++ ("url(".data ++ (('/' :: u0) ++ ')' ::
        (b ++ (("url('".data ++ lv ++ "')".data) ++ c)))) := by
  rw [repUrl]
  rw [show (a ++ ("url(".data ++ (('/' :: u0) ++ ')' ::
      (b ++ ("url(".data ++ (('/' :: (u0 ++ d)) ++ ')' :: c))))) : Str).length =
    a.length + ((((((('/' :: u0) ++ [')'] : Str).length +
      (b.length + ((u0.length + d.length + c.length + 5) + 1))) + 1) + 1) + 1) + 1)
    from by
      simp
      omega]
  rw [repUrlGo_skip _ _ a _ ha (take3_url _)]
  rw [repUrlGo_url_head_nomatch ('/' :: (u0 ++ d)) lv _ _
    (urlRepMatchAt_longer_none u0 d _ hd hdp)]
  rw [show (('/' :: u0) ++ ')' ::
      (b ++ ("url(".data ++ (('/' :: (u0 ++ d)) ++ ')' :: c))) : Str) =
    (('/' :: u0) ++ [')']) ++
      (b ++ ("url(".data ++ (('/' :: (u0 ++ d)) ++ ')' :: c))) from by simp]
  rw [repUrlGo_skip _ _ (('/' :: u0) ++ [')']) _
    (by
      intro hm
      rcases List.mem_append.1 hm with h | h
      · exact hu_nop h
      · simp at h)
    (take3_no_open_before_url b _ hb)]
  rw [repUrlGo_skip _ _ b _ hb (take3_url _)]
  rw [repUrlGo_wrap_match (u0 ++ d) c lv _]
  rw [repUrlGo_none _ lv c hc _]
  simp

theorem take3_url_quoted (lv z : Str) :
    '(' ∉ (((("url('".data ++ lv) ++ "')".data) ++ z).take 3 : Str) := by
  rw [show (((("url('".data ++ lv) ++ "')".data) ++ z).take 3 : Str) =
    ['u', 'r', 'l'] from rfl]
  decide

theorem repUrl_pass_shorter (a b c u0 lv lu : Str)
    (ha : '(' ∉ a) (hb : '(' ∉ b) (hc : '(' ∉ c)
    (hq1 : '\'' ∉ lv) (hq2 : lv ≠ '/' :: u0) (hq3 : '\'' ∉ ('/' :: u0 : Str))
    (hlv : '(' ∉ lv) :
    repUrl ('/' :: u0) lu
      (a ++ ("url(".data ++ (('/' :: u0) ++ ')' ::
        (b ++ (("url('".data ++ lv ++ "')".data) ++ c))))) =
      a ++ (("url('".data ++ lu ++ "')".data) ++
        (b ++ (("url('".data ++ lv ++ "')".data) ++ c))) := by
  rw [repUrl]
  rw [show (a ++ ("url(".data ++ (('/' :: u0) ++ ')' ::
      (b ++ (("url('".data ++ lv ++ "')".data) ++ c)))) : Str).length =
    a.length + (b.length + ((lv ++ ['\'', ')'] : Str).length +
      (u0.length + c.length + 5) + 1 + 1 + 1 + 1 + 1) + 1) from by
      simp
      omega]
  rw [repUrlGo_skip _ _ a _ ha (take3_url _)]
  rw [repUrlGo_wrap_match u0 _ lu _]
  rw [repUrlGo_skip _ _ b _ hb (take3_url_quoted lv c)]
  rw [show (("url('".data ++ lv ++ "')".data) ++ c : Str) =
    "url(".data ++ ('\'' :: (lv ++ '\'' :: ')' :: c)) from by simp]
  rw [repUrlGo_url_head_nomatch ('/' :: u0) lu _ _
    (urlRepMatchAt_quoted_none u0 lv c hq1 hq2 hq3)]
  rw [repUrlGo_cons_none ('/' :: u0) lu '\'' _ _
    (urlRepMatchAt_none_head _ '\'' _ (by decide))]
  rw [show (lv ++ '\'' :: ')' :: c : Str) = (lv ++ ['\'', ')']) ++ c from by simp]
  rw [repUrlGo_skip _ _ (lv ++ ['\'', ')']) c
    (by
      intro hm
      rcases List.mem_append.1 hm with h | h
      · exact hlv h
      · simp at h)
    (fun hm => hc (List.take_subset _ _ hm))]
  rw [repUrlGo_none _ lu c hc _]
  simp

/-- Claim C7: longest-URL-first replacement in an inline `style` attribute.
For every attribute of the form `a url(u) b url(v) c` whose two `url()`
payloads `u = /u0` and `v = /u0 d` are origin-bound and one is a proper string
prefix of the other (under scanner sanity conditions: no `(` in the literal
segments, no parens or single quotes in the payloads or in the longer URL's
localized path, and non-falsy localized paths), the rewrite replaces **both**
references with their own localized paths: the longer URL is replaced first,
and replacing the shorter one afterwards does not corrupt the already
rewritten occurrence of the longer one. -/
theorem claim7_longest_first_style_attr (origin base a b c u0 d : Str)
    (L : Str → Str)
    (ha : '(' ∉ a) (hb : '(' ∉ b) (hc : '(' ∉ c)
    (hu1 : '(' ∉ u0) (hu2 : ')' ∉ u0) (hu3 : '\'' ∉ u0)
    (hd : d ≠ []) (hdp : ')' ∉ d)
    (hob1 : pOf origin (resolveUrl base ('/' :: u0)) = true)
    (hob2 : pOf origin (resolveUrl base ('/' :: (u0 ++ d))) = true)
    (hq1 : '\'' ∉ L (resolveUrl base ('/' :: (u0 ++ d))))
    (hlv : '(' ∉ L (resolveUrl base ('/' :: (u0 ++ d))))
    (hq2 : L (resolveUrl base ('/' :: (u0 ++ d))) ≠ '/' :: u0)
    (hlvne : L (resolveUrl base ('/' :: (u0 ++ d))) ≠ [])
    (hlune : L (resolveUrl base ('/' :: u0)) ≠ []) :
    rewriteStyleAttr origin base L
      (a ++ ("url(".data ++ (('/' :: u0) ++ ')' ::
        (b ++ ("url(".data ++ (('/' :: (u0 ++ d)) ++ ')' :: c)))))) =
      a ++ (("url('".data ++ L (resolveUrl base ('/' :: u0)) ++ "')".data) ++
        (b ++ (("url('".data ++ L (resolveUrl base ('/' :: (u0 ++ d))) ++
          "')".data) ++ c))) := by
  have hu_np : ')' ∉ ('/' :: u0 : Str) := by
    intro hm
    rcases List.mem_cons.1 hm with h | h
    · exact absurd h.symm (by decide)
    · exact hu2 h
  have hv_np : ')' ∉ ('/' :: (u0 ++ d) : Str) := by
    intro hm
    rcases List.mem_cons.1 hm with h | h
    · exact absurd h.symm (by decide)
    · rcases List.mem_append.1 h with h2 | h2
      · exact hu2 h2
      · exact hdp h2
  have hu_nop : '(' ∉ ('/' :: u0 : Str) := by
    intro hm
    rcases List.mem_cons.1 hm with h | h
    · exact absurd h.symm (by decide)
    · exact hu1 h
  have hq3 : '\'' ∉ ('/' :: u0 : Str) := by
    intro hm
    rcases List.mem_cons.1 hm with h | h
    · exact absurd h.symm (by decide)
    · exact hu3 h
  have hvu : ¬(('/' :: (u0 ++ d) : Str) = '/' :: u0) := by
    intro h
    have h2 := congrArg List.length h
    simp at h2
    exact hd h2
  have hlen_lt : ¬(('/' :: (u0 ++ d) : Str).length < ('/' :: u0 : Str).length) := by
    simp
  rw [rewriteStyleAttr]
  rw [scanUrls_two_refs a b c u0 d ha hb hc hu_np hv_np]
  simp only [List.map, dedupFirst, List.filter, hob1, hob2]
  rw [show (decide (('/' :: (u0 ++ d) : Str) = '/' :: u0) : Bool) = false from by
    simp [hvu]]
  simp only [Bool.not_false, List.filter, sortLenDesc, List.foldr, insertLenDesc]
  rw [if_neg hlen_lt]
  simp only [List.foldl]
  rw [show (L (resolveUrl base ('/' :: (u0 ++ d)))).isEmpty = false from by
    simp [List.isEmpty_iff, hlvne]]
  simp only [Bool.false_eq_true, if_false]
  rw [repUrl_pass_longer a b c u0 d _ ha hb hc hu_nop hd hdp]
  rw [show (L (resolveUrl base ('/' :: u0))).isEmpty = false from by
    simp [List.isEmpty_iff, hlune]]
  simp only [Bool.false_eq_true, if_false]
  rw [repUrl_pass_shorter a b c u0 _ _ ha hb hc hq1 hq2 hq3 hlv]

/-- Witness for C7 at a concrete style attribute. -/
theorem claim7_witness :
    ('(' ∉ ("background:".data : Str)) ∧ ("/b.png".data : Str) ≠ [] ∧
    rewriteStyleAttr "http://s.t".data "http://s.t/p".data styleLocW
      "background:url(/a) url(/a/b.png);".data =
      "background:url('/assets/images/h1.png') url('/assets/images/h22.png');".data :=
  ⟨by decide, by decide, by
    have h := claim7_longest_first_style_attr "http://s.t".data "http://s.t/p".data
      "background:".data " ".data ";".data "a".data "/b.png".data styleLocW
      (by decide) (by decide) (by decide) (by decide) (by decide) (by decide)
      (by decide) (by decide) (by decide) (by decide) (by decide) (by decide)
      (by decide) (by decide) (by decide)
    rw [show ("background:url(/a) url(/a/b.png);".data : Str) =
      "background:".data ++ ("url(".data ++ (('/' :: "a".data) ++ ')' ::
        (" ".data ++ ("url(".data ++ (('/' :: ("a".data ++ "/b.png".data)) ++ ')' ::
          ";".data))))) from by decide, h]
    decide⟩
